import Mathlib

/-!
Verification development for the gst-alphamask element
(src/gstalphamask.c).  The element pairs a video stream with an
auxiliary GRAY8 alpha stream: a capacity-1 slot holds at most one alpha
buffer, the video chain decides per buffer whether to wait, pair, drop
or forward, and pure pixel loops copy the alpha plane into the output
frame.

Machine integers: GStreamer clock times are guint64 with
GST_CLOCK_TIME_NONE = 2^64 - 1 as the invalid sentinel.  We model them
as Nat, with additions and subtractions reduced mod 2^64 exactly where
the C code performs 64-bit arithmetic.  Comparisons in the C code are
plain unsigned comparisons, which coincide with Nat comparisons.

The running-time conversion gst_segment_to_running_time is GStreamer
library code (rate / base-offset model over doubles), external to this
repository; the decision logic is parametric in it: every function
below that needs it takes the two conversion maps (one closed over the
video segment, one over the alpha segment) as explicit arguments.
-/

/-- GST_CLOCK_TIME_NONE, the invalid timestamp sentinel (all-ones guint64). -/
def clockTimeNone : Nat := 2 ^ 64 - 1

/-- Unsigned 64-bit addition, as performed on GstClockTime values. -/
def u64add (a b : Nat) : Nat := (a + b) % 2 ^ 64

/-- Unsigned 64-bit subtraction (wrapping), as performed on GstClockTime values. -/
def u64sub (a b : Nat) : Nat := (a + 2 ^ 64 - b % 2 ^ 64) % 2 ^ 64

/-- GST_CLOCK_TIME_IS_VALID. -/
def ctValid (t : Nat) : Prop := t ≠ clockTimeNone

instance (t : Nat) : Decidable (ctValid t) := by unfold ctValid; infer_instance

/-- GstFormat, reduced to what the element distinguishes. -/
inductive GstFormat where
  | time
  | undefined
  | bytes
deriving DecidableEq

/-- The fields of GstSegment that gst_segment_clip and the element read.
start, stop and position are guint64 clock times (stop may be the NONE
sentinel for an unbounded segment). -/
structure GstSegment where
  format : GstFormat
  start : Nat
  stop : Nat
  position : Nat
deriving DecidableEq

/-- A GstBuffer as the element sees it: timestamp (pts), duration, both
possibly the NONE sentinel, and an opaque payload identity. -/
structure GstBuffer where
  pts : Nat
  dur : Nat
  payload : Nat
deriving DecidableEq

/-- gst_segment_clip (gstsegment.c), for buffers of the given format.
Returns none when the interval is outside the segment, otherwise the
clipped pair (clip_start, clip_stop).  Transcribed from the GStreamer
implementation: a valid start at or past segment stop rejects; a valid
stop below segment start rejects, with the special case that
start = stop = segment start is inside; clip_start is
max (start, segment start) and clip_stop is min (stop, segment stop),
NONE propagating (NONE is the largest u64, so min handles an unbounded
segment stop). -/
def gst_segment_clip (seg : GstSegment) (fmt : GstFormat) (start stop : Nat) :
    Option (Nat × Nat) :=
  if seg.format ≠ fmt then none
  else if ctValid seg.stop ∧ ctValid start ∧ start ≥ seg.stop then none
  else if ctValid stop ∧ (stop < seg.start ∨ (start ≠ stop ∧ stop = seg.start)) then none
  else
    some (if ctValid start then max start seg.start else clockTimeNone,
          if ctValid stop then min stop seg.stop else clockTimeNone)

/-- The local variables of gst_alpha_mask_video_chain that survive the
pre-decision phase (lines 426-478): start and stop are the LOCAL
variables (start is the original pre-clip timestamp; stop is the
original stop, or the estimated stop when the buffer had no duration);
clip_start / clip_stop are the outputs of gst_segment_clip; buffer is
the buffer with its metadata possibly rewritten to the clipped values. -/
structure VideoPrep where
  start : Nat
  stop : Nat
  clip_start : Nat
  clip_stop : Nat
  buffer : GstBuffer
deriving DecidableEq

/-- Outcome of the pre-decision phase of gst_alpha_mask_video_chain. -/
inductive PrepResult where
  | missingTimestamp
  | outOfSegment
  | ok (p : VideoPrep)
deriving DecidableEq

/-- Lines 430-478 of gst_alpha_mask_video_chain: reject undated buffers,
reject no-duration buffers starting before the segment (explicit
pre-check ahead of gst_segment_clip), clip, rewrite the buffer metadata
when the clip changed the interval, and estimate a stop for the local
variables when the buffer had no duration (from the negotiated frame
rate, else one unit).  Note the local variables start / stop
deliberately keep the pre-clip values, exactly as in the C code. -/
def videoPrepare (seg : GstSegment) (fps_n fps_d : Nat) (b : GstBuffer) : PrepResult :=
  if ¬ ctValid b.pts then .missingTimestamp
  else
    let start := b.pts
    let stop := if ¬ ctValid b.dur then clockTimeNone else u64add start b.dur
    if ¬ ctValid stop ∧ start < seg.start then .outOfSegment
    else
      match gst_segment_clip seg .time start stop with
      | none => .outOfSegment
      | some (clip_start, clip_stop) =>
        let b1 :=
          if clip_start ≠ start ∨ (ctValid stop ∧ clip_stop ≠ stop) then
            { b with pts := clip_start,
                     dur := if ctValid stop then u64sub clip_stop clip_start else b.dur }
          else b
        let stop2 :=
          if ¬ ctValid stop then
            if fps_n ≠ 0 ∧ fps_d ≠ 0 then u64add start (1000000000 * fps_d / fps_n)
            else u64add start 1
          else stop
        .ok ⟨start, stop2, clip_start, clip_stop, b1⟩

/-- The shared element state the video decision reads: the flush / EOS /
segment-done flags of both streams, the alpha slot, and both segments. -/
structure AMState where
  video_flushing : Bool
  video_eos : Bool
  alpha_flushing : Bool
  alpha_eos : Bool
  alpha_segment_done : Bool
  alpha_buffer : Option GstBuffer
  segment : GstSegment
  alpha_segment : GstSegment
deriving DecidableEq

/-- The decision outcome of one pass of the locked section of
gst_alpha_mask_video_chain (the body after the wait_for_alpha_buf
label).  staleRetry models case 4a (alpha popped, goto retry);
dropVideo models case 4b (buffer unreffed, FLOW_OK); emit models the
push of a composited frame pairing the prepared video buffer with the
slot content, with popAfter the final value of pop_alpha; forward
models the unpaired push of the video buffer; wait models blocking on
the condition variable (the chain re-runs the decision after waking). -/
inductive VDecision where
  | flushing
  | eos
  | staleRetry
  | dropVideo
  | emit (video alpha : GstBuffer) (popAfter : Bool)
  | forward (video : GstBuffer)
  | wait
deriving DecidableEq

/-- Immediately determined flow return of a decision outcome (emit and
forward depend on the downstream push; staleRetry and wait return
nothing yet). -/
inductive FlowRet where
  | ok
  | flushing
  | eos
deriving DecidableEq

def decisionFlow : VDecision → Option FlowRet
  | .flushing => some .flushing
  | .eos => some .eos
  | .dropVideo => some .ok
  | _ => none

/-- Slot content after a decision pass: case 4a pops immediately;
emit pops afterwards iff pop_alpha ended true; every other outcome
leaves the slot untouched. -/
def slotAfter (slot : Option GstBuffer) (d : VDecision) : Option GstBuffer :=
  match d with
  | .staleRetry => none
  | .emit _ _ pop => if pop then none else slot
  | _ => slot

/-- Lines 493-563: the slot-is-filled arm.  rtV / rtA are
gst_segment_to_running_time closed over the video / alpha segment.
Returns the decision together with the pair
(vid_running_time, vid_running_time_end) computed at lines 514-517 and
used by the stale / premature / consumed comparisons; note both are
computed from the LOCAL pre-clip start / stop.  pop_alpha starts true
exactly when the alpha timing is invalid (lines 503-508), and the emit
branch additionally sets it when alpha_running_time_end is at or before
vid_running_time_end (line 554). -/
def videoDecideFilled (rtV rtA : Nat → Nat) (alpha : GstBuffer) (p : VideoPrep) :
    VDecision × Nat × Nat :=
  let validAlphaTime : Prop := ctValid alpha.pts ∧ ctValid alpha.dur
  let alphaEnd := u64add alpha.pts alpha.dur
  let vidRT := rtV p.start
  let vidRTEnd := rtV p.stop
  let alphaRT := if validAlphaTime then rtA alpha.pts else clockTimeNone
  let alphaRTEnd := if validAlphaTime then rtA alphaEnd else clockTimeNone
  let dec : VDecision :=
    if validAlphaTime ∧ alphaRTEnd ≤ vidRT then .staleRetry
    else if validAlphaTime ∧ vidRTEnd ≤ alphaRT then .dropVideo
    else .emit p.buffer alpha (decide (¬ validAlphaTime ∨ alphaRTEnd ≤ vidRTEnd))
  (dec, vidRT, vidRTEnd)

/-- Lines 564-604: the slot-is-empty arm.  wait_for_alpha_buf starts
true, is cleared by alpha EOS or alpha segment-done, and, when the
alpha segment is in TIME format, is cleared when the running time of
the (clipped) buffer timestamp precedes the valid running time of the
alpha segment start or of its position. -/
def videoDecideEmpty (rtV rtA : Nat → Nat) (st : AMState) (p : VideoPrep) : VDecision :=
  let w1 : Bool := ! (st.alpha_eos || st.alpha_segment_done)
  let w2 : Bool :=
    if st.alpha_segment.format = GstFormat.time then
      let vidRT := rtV p.buffer.pts
      let aStartRT := rtA st.alpha_segment.start
      let aPosRT := rtA st.alpha_segment.position
      if (ctValid aStartRT ∧ vidRT < aStartRT) ∨ (ctValid aPosRT ∧ vidRT < aPosRT) then
        false
      else w1
    else w1
  if w2 then .wait else .forward p.buffer

/-- One pass of the locked decision of gst_alpha_mask_video_chain
(lines 484-604): flushing and EOS first, then the filled / empty arms. -/
def videoDecide (rtV rtA : Nat → Nat) (st : AMState) (p : VideoPrep) : VDecision :=
  if st.video_flushing then .flushing
  else if st.video_eos then .eos
  else
    match st.alpha_buffer with
    | some alpha => (videoDecideFilled rtV rtA alpha p).1
    | none => videoDecideEmpty rtV rtA st p

/-- Outcome of one pass of gst_alpha_mask_alpha_chain.  wouldWait models
the wait loop at lines 812-822 while the slot is occupied (the chain
blocks and re-checks after waking; a flush while blocked returns
FLOW_FLUSHING). -/
inductive AChainResult where
  | flushing
  | eos
  | dropped
  | wouldWait
  | queued (b : GstBuffer)
deriving DecidableEq

/-- gst_alpha_mask_alpha_chain (lines 756-841): flush / EOS checks, then
segment clipping — bypassed entirely when the buffer timestamp is
invalid (in_seg := TRUE, clip locals keep their 0 initialisers) — then
metadata rewrite to the clip locals (timestamp only if the timestamp is
valid, duration only if the duration is valid), the wait for an empty
slot, the position update (only for a valid rewritten timestamp), and
the handoff into the slot. -/
def alphaChain (st : AMState) (b : GstBuffer) : AChainResult × AMState :=
  if st.alpha_flushing then (.flushing, st)
  else if st.alpha_eos then (.eos, st)
  else
    let clipped : Bool × Nat × Nat :=
      if ctValid b.pts then
        let stop := if ctValid b.dur then u64add b.pts b.dur else clockTimeNone
        match gst_segment_clip st.alpha_segment .time b.pts stop with
        | some (cs, cst) => (true, cs, cst)
        | none => (false, 0, 0)
      else (true, 0, 0)
    let in_seg := clipped.1
    let clip_start := clipped.2.1
    let clip_stop := clipped.2.2
    if in_seg then
      let b1 : GstBuffer :=
        { b with pts := if ctValid b.pts then clip_start else b.pts,
                 dur := if ctValid b.dur then u64sub clip_stop clip_start else b.dur }
      match st.alpha_buffer with
      | some _ => (.wouldWait, st)
      | none =>
        let aseg :=
          if ctValid b1.pts then { st.alpha_segment with position := clip_start }
          else st.alpha_segment
        (.queued b1, { st with alpha_segment := aseg, alpha_buffer := some b1 })
    else (.dropped, st)

/-! ### Compositor pixel loops (lines 101-238)

Frame memory is a map from byte offsets (relative to the plane start)
to byte values; loads truncate to a byte (guint8 reads), stores
likewise.  Source and destination frames are distinct mappings (the
alpha frame is mapped read-only; the output is a freshly allocated
buffer), so loads always see the original source.  The machine is
little-endian, matching the targets of the unconditional guint32 /
guint64 reinterpretation in copy_alpha_packed_u4 / _u8. -/

/-- Byte-addressed plane memory. -/
abbrev ByteMem := Nat → Nat

/-- Read one byte (guint8 load). -/
def byteAt (m : ByteMem) (a : Nat) : Nat := m a % 256

/-- Store one byte (guint8 store truncates). -/
def memSet (m : ByteMem) (a v : Nat) : ByteMem :=
  fun x => if x = a then v % 256 else m x

/-- Little-endian load of n bytes starting at a. -/
def leLoad (src : ByteMem) : Nat → Nat → Nat
  | _, 0 => 0
  | a, n + 1 => byteAt src a + 256 * leLoad src (a + 1) n

/-- Inner loop of copy_alpha_packed_u1 (lines 107-109): for j below the
counter, dst[db + 4 j] := src[sb + j], in increasing j order. -/
def u1row (src : ByteMem) (sb db : Nat) : Nat → ByteMem → ByteMem
  | 0, m => m
  | j + 1, m => memSet (u1row src sb db j m) (db + 4 * j) (byteAt src (sb + j))

/-- Outer loop of copy_alpha_packed_u1: row i reads at i * sstride and
writes at i * dstride. -/
def u1rows (src : ByteMem) (ss ds w : Nat) : Nat → ByteMem → ByteMem
  | 0, m => m
  | i + 1, m => u1row src (i * ss) (i * ds) w (u1rows src ss ds w i m)

/-- copy_alpha_packed_u1 (lines 101-114): the byte-at-a-time loop
writing the alpha byte of each 4-byte output pixel. -/
def copy_alpha_packed_u1 (dst : ByteMem) (dstride : Nat) (src : ByteMem)
    (sstride width height : Nat) : ByteMem :=
  u1rows src sstride dstride width height dst

/-- Inner loop of copy_alpha_packed_u4 (lines 126-136): per iteration a
guint32 load c and four stores of c shifted in 8-bit steps at
destination offsets 16 j + 0, 4, 8, 12. -/
def u4row (src : ByteMem) (sb db : Nat) : Nat → ByteMem → ByteMem
  | 0, m => m
  | j + 1, m =>
    let c := leLoad src (sb + 4 * j) 4
    memSet (memSet (memSet (memSet (u4row src sb db j m)
      (db + 16 * j) c)
      (db + 16 * j + 4) (c / 256))
      (db + 16 * j + 8) (c / 256 / 256))
      (db + 16 * j + 12) (c / 256 / 256 / 256)

/-- Outer loop of copy_alpha_packed_u4. -/
def u4rows (src : ByteMem) (ss ds w4 : Nat) : Nat → ByteMem → ByteMem
  | 0, m => m
  | i + 1, m => u4row src (i * ss) (i * ds) w4 (u4rows src ss ds w4 i m)

/-- copy_alpha_packed_u4 (lines 116-141): the 4-pixel batch loop; the
batch count per row is width >> 2. -/
def copy_alpha_packed_u4 (dst : ByteMem) (dstride : Nat) (src : ByteMem)
    (sstride width height : Nat) : ByteMem :=
  u4rows src sstride dstride (width / 4) height dst

/-- Inner loop of copy_alpha_packed_u8 (lines 153-171): per iteration a
guint64 load c and eight stores of c shifted in 8-bit steps at
destination offsets 32 j + 0, 4, ..., 28. -/
def u8row (src : ByteMem) (sb db : Nat) : Nat → ByteMem → ByteMem
  | 0, m => m
  | j + 1, m =>
    let c := leLoad src (sb + 8 * j) 8
    memSet (memSet (memSet (memSet (memSet (memSet (memSet (memSet
      (u8row src sb db j m)
      (db + 32 * j) c)
      (db + 32 * j + 4) (c / 256))
      (db + 32 * j + 8) (c / 256 / 256))
      (db + 32 * j + 12) (c / 256 / 256 / 256))
      (db + 32 * j + 16) (c / 256 / 256 / 256 / 256))
      (db + 32 * j + 20) (c / 256 / 256 / 256 / 256 / 256))
      (db + 32 * j + 24) (c / 256 / 256 / 256 / 256 / 256 / 256))
      (db + 32 * j + 28) (c / 256 / 256 / 256 / 256 / 256 / 256 / 256)

/-- Outer loop of copy_alpha_packed_u8. -/
def u8rows (src : ByteMem) (ss ds w8 : Nat) : Nat → ByteMem → ByteMem
  | 0, m => m
  | i + 1, m => u8row src (i * ss) (i * ds) w8 (u8rows src ss ds w8 i m)

/-- copy_alpha_packed_u8 (lines 143-176): the 8-pixel batch loop; the
batch count per row is width >> 3. -/
def copy_alpha_packed_u8 (dst : ByteMem) (dstride : Nat) (src : ByteMem)
    (sstride width height : Nat) : ByteMem :=
  u8rows src sstride dstride (width / 8) height dst

/-- copy_alpha_packed (lines 178-205), with the frame geometry (width,
height, strides) passed explicitly in place of the GstVideoFrame
accessors: width with a nonzero low 2 bits routes to the byte loop,
else a nonzero bit 2 routes to the 4-batch loop, else the 8-batch
loop. -/
def copy_alpha_packed (dst : ByteMem) (dstride : Nat) (src : ByteMem)
    (sstride width height : Nat) : ByteMem :=
  if width % 4 ≠ 0 then copy_alpha_packed_u1 dst dstride src sstride width height
  else if width % 8 ≠ 0 then copy_alpha_packed_u4 dst dstride src sstride width height
  else copy_alpha_packed_u8 dst dstride src sstride width height

/-- memcpy of n bytes from src + sb to dst + db (non-overlapping
buffers, increasing order). -/
def memcpyBytes (dst : ByteMem) (db : Nat) (src : ByteMem) (sb : Nat) : Nat → ByteMem
  | 0 => dst
  | n + 1 => memSet (memcpyBytes dst db src sb n) (db + n) (byteAt src (sb + n))

/-- Row loop of copy_alpha_planar (lines 231-236): row i copies width
bytes from i * sstride to i * dstride. -/
def planarRows (src : ByteMem) (ss ds w : Nat) : Nat → ByteMem → ByteMem
  | 0, m => m
  | i + 1, m => memcpyBytes (planarRows src ss ds w i m) (i * ds) src (i * ss) w

/-- copy_alpha_planar (lines 207-238), geometry passed explicitly: a
single bulk memcpy of height * sstride bytes when the strides agree,
else the per-row loop. -/
def copy_alpha_planar (dst : ByteMem) (dstride : Nat) (src : ByteMem)
    (sstride width height : Nat) : ByteMem :=
  if sstride = dstride then memcpyBytes dst 0 src 0 (height * sstride)
  else planarRows src sstride dstride width height dst

/-- Reference loop stated by the spec for the planar layout: copy the
alpha plane row by row, width bytes per row, respecting the two
strides.  This definition follows the words of the spec and is compared
against copy_alpha_planar. -/
def naiveRows (src : ByteMem) (ss ds w : Nat) : Nat → ByteMem → ByteMem
  | 0, m => m
  | i + 1, m => memcpyBytes (naiveRows src ss ds w i m) (i * ds) src (i * ss) w

/-- The spec reference compositor for the planar layout. -/
def naive_plane_copy (dst : ByteMem) (dstride : Nat) (src : ByteMem)
    (sstride width height : Nat) : ByteMem :=
  naiveRows src sstride dstride width height dst

/-! ### Concrete fixtures for witnesses and counterexamples -/

/-- A freshly initialised TIME segment (gst_segment_init): start 0,
unbounded stop, position 0. -/
def segDefault : GstSegment := ⟨.time, 0, clockTimeNone, 0⟩

/-- gst_segment_to_running_time for the freshly initialised TIME
segment (start 0, base 0, rate 1): the identity, with the NONE
sentinel mapping to itself. -/
def rtId : Nat → Nat := fun t => t

/-- Element state with both streams freshly started and the given slot
content. -/
def stWith (slot : Option GstBuffer) : AMState :=
  ⟨false, false, false, false, false, slot, segDefault, segDefault⟩

/-! ### C2: stale alpha is released and the decision retried -/

/-- C2: whenever the slot holds an alpha buffer with valid timestamp
and duration whose running-time end is at or before the running-time
start of the video interval, the decision pass releases the alpha
buffer and retries from the top: no output is emitted, the video buffer
is not consumed, and the slot is empty afterwards. -/
theorem c2_stale_release (rtV rtA : Nat → Nat) (st : AMState) (alpha : GstBuffer)
    (p : VideoPrep)
    (hf : st.video_flushing = false) (he : st.video_eos = false)
    (hs : st.alpha_buffer = some alpha)
    (hv : ctValid alpha.pts) (hd : ctValid alpha.dur)
    (hst : rtA (u64add alpha.pts alpha.dur) ≤ rtV p.start) :
    videoDecide rtV rtA st p = .staleRetry ∧
    slotAfter st.alpha_buffer (videoDecide rtV rtA st p) = none := by
  have hval : ctValid alpha.pts ∧ ctValid alpha.dur := ⟨hv, hd⟩
  have hdec : videoDecide rtV rtA st p = .staleRetry := by
    simp only [videoDecide, hf, he, hs, Bool.false_eq_true, if_false]
    simp only [videoDecideFilled]
    rw [if_pos ⟨hval, by rw [if_pos hval]; exact hst⟩]
  exact ⟨hdec, by rw [hdec]; rfl⟩

/-- Witness for c2_stale_release: the spec scenario of an alpha buffer
covering [0,10) against a video buffer covering [20,53) on fresh
segments: the alpha is stale, released, and the decision retried. -/
theorem c2_stale_release_witness :
    videoDecide rtId rtId (stWith (some ⟨0, 10, 7⟩)) ⟨20, 53, 20, 53, ⟨20, 33, 1⟩⟩ =
      .staleRetry ∧
    slotAfter (stWith (some ⟨0, 10, 7⟩)).alpha_buffer
      (videoDecide rtId rtId (stWith (some ⟨0, 10, 7⟩)) ⟨20, 53, 20, 53, ⟨20, 33, 1⟩⟩) =
      none :=
  c2_stale_release rtId rtId (stWith (some ⟨0, 10, 7⟩)) ⟨0, 10, 7⟩
    ⟨20, 53, 20, 53, ⟨20, 33, 1⟩⟩ rfl rfl rfl (by decide) (by decide) (by decide)

/-! ### C3: premature alpha drops the video buffer -/

/-- Counterexample to C3 as stated.  Both streams use fresh segments;
the slot holds the zero-length alpha buffer at timestamp 5 and the
video buffer is the zero-length buffer at timestamp 5 (zero durations
are valid GStreamer durations).  The claim premise holds: the video
running-time end (5) is at or before the alpha running-time start (5),
with valid alpha timing.  But the stale test of line 537 fires first
(the alpha running-time end 5 is also at or before the video
running-time start 5), so the pass releases the alpha and retries: the
video buffer is not dropped and the alpha buffer is not retained,
contradicting the claim. -/
theorem c3_counterexample :
    videoPrepare segDefault 0 0 ⟨5, 0, 2⟩ = .ok ⟨5, 5, 5, 5, ⟨5, 0, 2⟩⟩ ∧
    ctValid (5 : Nat) ∧ ctValid (0 : Nat) ∧
    rtId ((⟨5, 5, 5, 5, ⟨5, 0, 2⟩⟩ : VideoPrep).stop) ≤ rtId ((5 : Nat)) ∧
    videoDecide rtId rtId (stWith (some ⟨5, 0, 3⟩)) ⟨5, 5, 5, 5, ⟨5, 0, 2⟩⟩ =
      .staleRetry ∧
    slotAfter (stWith (some ⟨5, 0, 3⟩)).alpha_buffer
      (videoDecide rtId rtId (stWith (some ⟨5, 0, 3⟩)) ⟨5, 5, 5, 5, ⟨5, 0, 2⟩⟩) =
      none := by
  decide

/-- C3 (amended): when additionally the stale case does not apply (the
alpha running-time end is strictly after the video running-time start),
a video buffer whose running-time end is at or before the alpha
running-time start is dropped entirely: no output, flow return OK, and
the alpha buffer stays in the slot. -/
theorem c3_premature_drop (rtV rtA : Nat → Nat) (st : AMState) (alpha : GstBuffer)
    (p : VideoPrep)
    (hf : st.video_flushing = false) (he : st.video_eos = false)
    (hs : st.alpha_buffer = some alpha)
    (hv : ctValid alpha.pts) (hd : ctValid alpha.dur)
    (hnotstale : ¬ rtA (u64add alpha.pts alpha.dur) ≤ rtV p.start)
    (hfut : rtV p.stop ≤ rtA alpha.pts) :
    videoDecide rtV rtA st p = .dropVideo ∧
    decisionFlow (videoDecide rtV rtA st p) = some .ok ∧
    slotAfter st.alpha_buffer (videoDecide rtV rtA st p) = some alpha := by
  have hval : ctValid alpha.pts ∧ ctValid alpha.dur := ⟨hv, hd⟩
  have hdec : videoDecide rtV rtA st p = .dropVideo := by
    simp only [videoDecide, hf, he, hs, Bool.false_eq_true, if_false]
    simp only [videoDecideFilled]
    rw [if_neg (by intro h; rw [if_pos hval] at h; exact hnotstale h.2),
        if_pos ⟨hval, by rw [if_pos hval]; exact hfut⟩]
  exact ⟨hdec, by rw [hdec]; rfl, by rw [hdec, hs]; rfl⟩

/-- Witness for c3_premature_drop: a video buffer covering [0,33)
against a held alpha buffer covering [100,110) on fresh segments: the
video buffer is dropped and the alpha retained. -/
theorem c3_premature_drop_witness :
    videoDecide rtId rtId (stWith (some ⟨100, 10, 7⟩)) ⟨0, 33, 0, 33, ⟨0, 33, 1⟩⟩ =
      .dropVideo ∧
    decisionFlow (videoDecide rtId rtId (stWith (some ⟨100, 10, 7⟩))
      ⟨0, 33, 0, 33, ⟨0, 33, 1⟩⟩) = some .ok ∧
    slotAfter (stWith (some ⟨100, 10, 7⟩)).alpha_buffer
      (videoDecide rtId rtId (stWith (some ⟨100, 10, 7⟩)) ⟨0, 33, 0, 33, ⟨0, 33, 1⟩⟩) =
      some ⟨100, 10, 7⟩ :=
  c3_premature_drop rtId rtId (stWith (some ⟨100, 10, 7⟩)) ⟨100, 10, 7⟩
    ⟨0, 33, 0, 33, ⟨0, 33, 1⟩⟩ rfl rfl rfl (by decide) (by decide) (by decide) (by decide)

/-! ### C1: temporal overlap emits and conditionally releases -/

/-- Counterexample to C1 as stated.  The slot holds an alpha buffer
with an invalid timestamp and duration, which the claim explicitly
counts into the overlap/emit case.  The pass emits a composited frame
and RELEASES the alpha buffer, yet the alpha buffer has no valid
running-time end: the code variable alpha_running_time_end keeps the
NONE sentinel, and NONE is not at or before the video running-time end
(the third projection of videoDecideFilled, here 33).  So the release
is not equivalent to the condition of the claim (release iff the alpha
running-time end is at or before the video running-time end). -/
theorem c1_counterexample :
    videoPrepare segDefault 0 0 ⟨0, 33, 1⟩ = .ok ⟨0, 33, 0, 33, ⟨0, 33, 1⟩⟩ ∧
    videoDecide rtId rtId (stWith (some ⟨clockTimeNone, clockTimeNone, 7⟩))
      ⟨0, 33, 0, 33, ⟨0, 33, 1⟩⟩ =
      .emit ⟨0, 33, 1⟩ ⟨clockTimeNone, clockTimeNone, 7⟩ true ∧
    slotAfter (stWith (some ⟨clockTimeNone, clockTimeNone, 7⟩)).alpha_buffer
      (videoDecide rtId rtId (stWith (some ⟨clockTimeNone, clockTimeNone, 7⟩))
        ⟨0, 33, 0, 33, ⟨0, 33, 1⟩⟩) = none ∧
    ¬ clockTimeNone ≤
      (videoDecideFilled rtId rtId ⟨clockTimeNone, clockTimeNone, 7⟩
        ⟨0, 33, 0, 33, ⟨0, 33, 1⟩⟩).2.2 := by
  decide

/-- C1 (amended): when neither the stale case (4a) nor the premature
case (4b) applies, the pass emits exactly one composited frame pairing
the prepared video buffer with the held alpha buffer; afterwards the
alpha buffer is released if and only if its timing is invalid (it was
consumed for exactly this one frame) or its running-time end is at or
before the video running-time end (equal ends release it); otherwise it
is kept in the slot. -/
theorem c1_overlap_emit (rtV rtA : Nat → Nat) (st : AMState) (alpha : GstBuffer)
    (p : VideoPrep)
    (hf : st.video_flushing = false) (he : st.video_eos = false)
    (hs : st.alpha_buffer = some alpha)
    (hnotstale : ¬ ((ctValid alpha.pts ∧ ctValid alpha.dur) ∧
      rtA (u64add alpha.pts alpha.dur) ≤ rtV p.start))
    (hnotfut : ¬ ((ctValid alpha.pts ∧ ctValid alpha.dur) ∧
      rtV p.stop ≤ rtA alpha.pts)) :
    videoDecide rtV rtA st p = .emit p.buffer alpha
      (decide (¬ (ctValid alpha.pts ∧ ctValid alpha.dur) ∨
        rtA (u64add alpha.pts alpha.dur) ≤ rtV p.stop)) ∧
    (slotAfter st.alpha_buffer (videoDecide rtV rtA st p) = none ↔
      (¬ (ctValid alpha.pts ∧ ctValid alpha.dur) ∨
        rtA (u64add alpha.pts alpha.dur) ≤ rtV p.stop)) := by
  have hNs : ¬ ((ctValid alpha.pts ∧ ctValid alpha.dur) ∧
      (if ctValid alpha.pts ∧ ctValid alpha.dur then rtA (u64add alpha.pts alpha.dur)
       else clockTimeNone) ≤ rtV p.start) := by
    intro h
    rw [if_pos h.1] at h
    exact hnotstale h
  have hNf : ¬ ((ctValid alpha.pts ∧ ctValid alpha.dur) ∧
      rtV p.stop ≤ (if ctValid alpha.pts ∧ ctValid alpha.dur then rtA alpha.pts
       else clockTimeNone)) := by
    intro h
    rw [if_pos h.1] at h
    exact hnotfut h
  have hpop : (decide (¬ (ctValid alpha.pts ∧ ctValid alpha.dur) ∨
      (if ctValid alpha.pts ∧ ctValid alpha.dur then rtA (u64add alpha.pts alpha.dur)
       else clockTimeNone) ≤ rtV p.stop)) =
      (decide (¬ (ctValid alpha.pts ∧ ctValid alpha.dur) ∨
        rtA (u64add alpha.pts alpha.dur) ≤ rtV p.stop)) := by
    apply decide_eq_decide.mpr
    by_cases h1 : ctValid alpha.pts ∧ ctValid alpha.dur
    · rw [if_pos h1]
    · exact iff_of_true (Or.inl h1) (Or.inl h1)
  have hdec : videoDecide rtV rtA st p = .emit p.buffer alpha
      (decide (¬ (ctValid alpha.pts ∧ ctValid alpha.dur) ∨
        rtA (u64add alpha.pts alpha.dur) ≤ rtV p.stop)) := by
    simp only [videoDecide, hf, he, hs, Bool.false_eq_true, if_false]
    simp only [videoDecideFilled]
    rw [if_neg hNs, if_neg hNf]
    simp only [hpop]
  refine ⟨hdec, ?_⟩
  rw [hs, hdec]
  by_cases hc : (¬ (ctValid alpha.pts ∧ ctValid alpha.dur) ∨
      rtA (u64add alpha.pts alpha.dur) ≤ rtV p.stop)
  · simp only [slotAfter, decide_eq_true hc, if_true]
    exact iff_of_true trivial hc
  · have : (decide (¬ (ctValid alpha.pts ∧ ctValid alpha.dur) ∨
        rtA (u64add alpha.pts alpha.dur) ≤ rtV p.stop)) = false :=
      decide_eq_false hc
    simp only [slotAfter, this, if_false]
    simp only [iff_false_intro hc, reduceCtorEq, iff_false]
    exact fun h => Option.some_ne_none alpha h

/-- Witness for c1_overlap_emit: video buffer covering [0,33) and held
alpha buffer covering [0,33) on fresh segments (the spec scenario):
one frame is emitted pairing both, and the alpha is released since the
ends coincide. -/
theorem c1_overlap_emit_witness :
    videoDecide rtId rtId (stWith (some ⟨0, 33, 7⟩)) ⟨0, 33, 0, 33, ⟨0, 33, 1⟩⟩ =
      .emit ⟨0, 33, 1⟩ ⟨0, 33, 7⟩
        (decide (¬ (ctValid (0 : Nat) ∧ ctValid (33 : Nat)) ∨
          rtId (u64add 0 33) ≤ rtId 33)) ∧
    (slotAfter (stWith (some ⟨0, 33, 7⟩)).alpha_buffer
      (videoDecide rtId rtId (stWith (some ⟨0, 33, 7⟩)) ⟨0, 33, 0, 33, ⟨0, 33, 1⟩⟩) =
        none ↔
      (¬ (ctValid (0 : Nat) ∧ ctValid (33 : Nat)) ∨ rtId (u64add 0 33) ≤ rtId 33)) :=
  c1_overlap_emit rtId rtId (stWith (some ⟨0, 33, 7⟩)) ⟨0, 33, 7⟩
    ⟨0, 33, 0, 33, ⟨0, 33, 1⟩⟩ rfl rfl rfl (by decide) (by decide)

/-! ### C4: empty slot, wait-or-forward policy -/

/-- C4: with an empty slot (and the video stream neither flushing nor
at EOS), the pass forwards the video buffer unmodified exactly when the
alpha stream has signaled EOS or segment-done, or the alpha segment is
in TIME format and the running time of the buffer timestamp is strictly
below the valid running time of the alpha segment start or of its
current position; in every other case the pass blocks on the condition
variable (and the chain re-runs the decision after waking). -/
theorem c4_empty_slot_policy (rtV rtA : Nat → Nat) (st : AMState) (p : VideoPrep)
    (hf : st.video_flushing = false) (he : st.video_eos = false)
    (hs : st.alpha_buffer = none) :
    (videoDecide rtV rtA st p = .forward p.buffer ↔
      (st.alpha_eos = true ∨ st.alpha_segment_done = true ∨
        (st.alpha_segment.format = GstFormat.time ∧
          ((ctValid (rtA st.alpha_segment.start) ∧
              rtV p.buffer.pts < rtA st.alpha_segment.start) ∨
           (ctValid (rtA st.alpha_segment.position) ∧
              rtV p.buffer.pts < rtA st.alpha_segment.position))))) ∧
    (videoDecide rtV rtA st p = .wait ↔
      ¬ (st.alpha_eos = true ∨ st.alpha_segment_done = true ∨
        (st.alpha_segment.format = GstFormat.time ∧
          ((ctValid (rtA st.alpha_segment.start) ∧
              rtV p.buffer.pts < rtA st.alpha_segment.start) ∨
           (ctValid (rtA st.alpha_segment.position) ∧
              rtV p.buffer.pts < rtA st.alpha_segment.position))))) := by
  simp only [videoDecide, hf, he, hs, Bool.false_eq_true, if_false]
  simp only [videoDecideEmpty]
  by_cases hfmt : st.alpha_segment.format = GstFormat.time
  · rw [if_pos hfmt]
    by_cases hcmp : (ctValid (rtA st.alpha_segment.start) ∧
        rtV p.buffer.pts < rtA st.alpha_segment.start) ∨
        (ctValid (rtA st.alpha_segment.position) ∧
          rtV p.buffer.pts < rtA st.alpha_segment.position)
    · rw [if_pos hcmp]
      simp [hfmt, hcmp]
    · rw [if_neg hcmp]
      cases hae : st.alpha_eos <;> cases hasd : st.alpha_segment_done <;>
        simp [hfmt, hcmp, hae, hasd]
  · rw [if_neg hfmt]
    cases hae : st.alpha_eos <;> cases hasd : st.alpha_segment_done <;>
      simp [hfmt, hae, hasd]

/-- Witness for c4_empty_slot_policy: alpha stream at EOS, empty slot:
the video buffer is forwarded unmodified. -/
theorem c4_empty_slot_policy_witness :
    (videoDecide rtId rtId ⟨false, false, false, true, false, none, segDefault, segDefault⟩
        ⟨0, 33, 0, 33, ⟨0, 33, 1⟩⟩ = .forward ⟨0, 33, 1⟩ ↔
      ((true : Bool) = true ∨ (false : Bool) = true ∨
        (segDefault.format = GstFormat.time ∧
          ((ctValid (rtId segDefault.start) ∧ rtId (0 : Nat) < rtId segDefault.start) ∨
           (ctValid (rtId segDefault.position) ∧
              rtId (0 : Nat) < rtId segDefault.position))))) ∧
    (videoDecide rtId rtId ⟨false, false, false, true, false, none, segDefault, segDefault⟩
        ⟨0, 33, 0, 33, ⟨0, 33, 1⟩⟩ = .wait ↔
      ¬ ((true : Bool) = true ∨ (false : Bool) = true ∨
        (segDefault.format = GstFormat.time ∧
          ((ctValid (rtId segDefault.start) ∧ rtId (0 : Nat) < rtId segDefault.start) ∨
           (ctValid (rtId segDefault.position) ∧
              rtId (0 : Nat) < rtId segDefault.position))))) :=
  c4_empty_slot_policy rtId rtId
    ⟨false, false, false, true, false, none, segDefault, segDefault⟩
    ⟨0, 33, 0, 33, ⟨0, 33, 1⟩⟩ rfl rfl rfl

/-! ### C5: clipping rewrites stamps, but step 4 compares pre-clip times -/

/-- Subtracting a u64 addend back off recovers it (no wrap needed when
the addend is a machine value). -/
theorem u64sub_add_cancel (a d : Nat) (hd : d < 2 ^ 64) :
    u64sub (u64add a d) a = d := by
  unfold u64add u64sub
  omega

/-- The running-time pair returned by the slot-filled arm is always the
pair computed from the LOCAL pre-clip start / stop of the prepared
buffer (lines 514-517). -/
theorem videoDecideFilled_usedRT (rtV rtA : Nat → Nat) (alpha : GstBuffer)
    (p : VideoPrep) :
    (videoDecideFilled rtV rtA alpha p).2 = (rtV p.start, rtV p.stop) := rfl

/-- A TIME segment starting at 10 with unbounded stop. -/
def seg10 : GstSegment := ⟨.time, 10, clockTimeNone, 10⟩

/-- gst_segment_to_running_time for seg10 (rate 1, base 0): invalid
positions and positions before the segment start map to NONE, others to
t - 10. -/
def rt10 : Nat → Nat := fun t =>
  if t = clockTimeNone then clockTimeNone
  else if t < 10 then clockTimeNone
  else t - 10

/-- Counterexample to C5 as stated.  The video buffer [5,15) against
the segment starting at 10 is accepted and clipped to [10,15): the
buffer metadata is rewritten (timestamp 10, duration 5), but the
slot-filled arm computes vid_running_time from the PRE-CLIP local start
5, which is before the segment and yields the NONE running time, not
the running time 0 of the clipped start 10.  Consequence: against a
held alpha buffer [10,15) — a perfect overlap of the clipped interval —
the pass takes the stale branch and releases the alpha, where the
clipped comparison would emit. -/
theorem c5_counterexample :
    videoPrepare seg10 0 0 ⟨5, 10, 4⟩ = .ok ⟨5, 15, 10, 15, ⟨10, 5, 4⟩⟩ ∧
    (videoDecideFilled rt10 rt10 ⟨10, 5, 9⟩ ⟨5, 15, 10, 15, ⟨10, 5, 4⟩⟩).2.1 =
      clockTimeNone ∧
    rt10 ((⟨5, 15, 10, 15, ⟨10, 5, 4⟩⟩ : VideoPrep).clip_start) = 0 ∧
    (videoDecideFilled rt10 rt10 ⟨10, 5, 9⟩ ⟨5, 15, 10, 15, ⟨10, 5, 4⟩⟩).1 =
      .staleRetry ∧
    (videoDecideFilled rt10 rt10 ⟨10, 5, 9⟩ ⟨10, 15, 10, 15, ⟨10, 5, 4⟩⟩).1 =
      .emit ⟨10, 5, 4⟩ ⟨10, 5, 9⟩ true := by
  decide

/-- C5 (amended): on acceptance the buffer metadata is rewritten to the
clipped values — the emitted buffer carries the clipped timestamp and
duration — but the running-time interval used by the stale / premature
/ overlap comparisons of step 4 is computed from the PRE-CLIP start and
stop locals; only the empty-slot path of step 5 uses the clipped
timestamp.  The duration hypothesis pins the machine-integer range and
keeps the computed stop off the NONE sentinel. -/
theorem c5_clipped_stamps_preclip_compare (seg : GstSegment) (fps_n fps_d : Nat)
    (b : GstBuffer) (p : VideoPrep) (rtV rtA : Nat → Nat) (alpha : GstBuffer)
    (hok : videoPrepare seg fps_n fps_d b = .ok p)
    (hdur : b.dur < 2 ^ 64)
    (hnn : ctValid b.dur → ctValid (u64add b.pts b.dur)) :
    p.start = b.pts ∧
    p.buffer.pts = p.clip_start ∧
    (ctValid b.dur → p.buffer.dur = u64sub p.clip_stop p.clip_start) ∧
    (videoDecideFilled rtV rtA alpha p).2 = (rtV p.start, rtV p.stop) := by
  have hghost := videoDecideFilled_usedRT rtV rtA alpha p
  simp only [videoPrepare] at hok
  by_cases hv : ctValid b.dur
  · rw [if_neg (not_not_intro hv)] at hok
    have hstop : ctValid (u64add b.pts b.dur) := hnn hv
    split at hok
    · simp at hok
    · rw [if_neg (fun h => h.1 hstop)] at hok
      split at hok
      · simp at hok
      · rename_i cs cst hclip
        injection hok with h
        subst h
        refine ⟨rfl, ?_, fun _ => ?_, hghost⟩
        · by_cases hcond : cs ≠ b.pts ∨ (ctValid (u64add b.pts b.dur) ∧
              cst ≠ u64add b.pts b.dur)
          · rw [if_pos hcond]
          · rw [if_neg hcond]
            push_neg at hcond
            exact hcond.1.symm
        · by_cases hcond : cs ≠ b.pts ∨ (ctValid (u64add b.pts b.dur) ∧
              cst ≠ u64add b.pts b.dur)
          · rw [if_pos hcond]
          · rw [if_neg hcond]
            push_neg at hcond
            rw [hcond.2 hstop, hcond.1]
            exact (u64sub_add_cancel b.pts b.dur hdur).symm
  · rw [if_pos hv] at hok
    split at hok
    · simp at hok
    · split at hok
      · simp at hok
      · split at hok
        · simp at hok
        · rename_i cs cst hclip
          injection hok with h
          subst h
          refine ⟨rfl, ?_, fun hvv => absurd hvv hv, hghost⟩
          by_cases hcond : cs ≠ b.pts ∨ (ctValid clockTimeNone ∧ cst ≠ clockTimeNone)
          · rw [if_pos hcond]
          · rw [if_neg hcond]
            push_neg at hcond
            exact hcond.1.symm

/-- Witness for c5_clipped_stamps_preclip_compare at the clipped buffer
[5,15) of c5_counterexample. -/
theorem c5_clipped_stamps_preclip_compare_witness :
    (⟨5, 15, 10, 15, ⟨10, 5, 4⟩⟩ : VideoPrep).start = (⟨5, 10, 4⟩ : GstBuffer).pts ∧
    (⟨5, 15, 10, 15, ⟨10, 5, 4⟩⟩ : VideoPrep).buffer.pts =
      (⟨5, 15, 10, 15, ⟨10, 5, 4⟩⟩ : VideoPrep).clip_start ∧
    (ctValid (⟨5, 10, 4⟩ : GstBuffer).dur →
      (⟨5, 15, 10, 15, ⟨10, 5, 4⟩⟩ : VideoPrep).buffer.dur =
        u64sub (⟨5, 15, 10, 15, ⟨10, 5, 4⟩⟩ : VideoPrep).clip_stop
          (⟨5, 15, 10, 15, ⟨10, 5, 4⟩⟩ : VideoPrep).clip_start) ∧
    (videoDecideFilled rt10 rt10 ⟨10, 5, 9⟩ ⟨5, 15, 10, 15, ⟨10, 5, 4⟩⟩).2 =
      (rt10 (⟨5, 15, 10, 15, ⟨10, 5, 4⟩⟩ : VideoPrep).start,
       rt10 (⟨5, 15, 10, 15, ⟨10, 5, 4⟩⟩ : VideoPrep).stop) :=
  c5_clipped_stamps_preclip_compare seg10 0 0 ⟨5, 10, 4⟩ ⟨5, 15, 10, 15, ⟨10, 5, 4⟩⟩
    rt10 rt10 ⟨10, 5, 9⟩ (by decide) (by decide) (by decide)

/-! ### C6: no-stop buffers starting before the segment -/

/-- Counterexample to C6 as stated.  On the ALPHA stream there is no
pre-check: an alpha buffer with unknown stop (no duration) whose start
3 precedes the alpha segment start 10 passes gst_segment_clip (which
cannot reject it, the stop being unknown) and is queued with its
timestamp silently snapped forward to the segment start 10 — it is not
rejected and not discarded. -/
theorem c6_counterexample :
    (alphaChain ⟨false, false, false, false, false, none, segDefault, seg10⟩
      ⟨3, clockTimeNone, 1⟩).1 = .queued ⟨10, clockTimeNone, 1⟩ ∧
    (alphaChain ⟨false, false, false, false, false, none, segDefault, seg10⟩
      ⟨3, clockTimeNone, 1⟩).2.alpha_buffer = some ⟨10, clockTimeNone, 1⟩ ∧
    (3 : Nat) < seg10.start := by
  decide

/-- C6 (amended): on the VIDEO stream, a buffer whose stop is unknown
(no duration) and whose start precedes the segment start is rejected
outright by the explicit pre-check at lines 448-449, before the generic
clip logic could snap its start forward; the alpha chain has no such
pre-check and accepts the analogous buffer with a snapped timestamp. -/
theorem c6_video_no_stop_early_reject (seg : GstSegment) (fps_n fps_d : Nat)
    (b : GstBuffer)
    (hv : ctValid b.pts) (hd : ¬ ctValid b.dur) (hlt : b.pts < seg.start) :
    videoPrepare seg fps_n fps_d b = .outOfSegment := by
  simp only [videoPrepare]
  rw [if_neg (not_not_intro hv), if_pos hd, if_pos ⟨fun h => h rfl, hlt⟩]

/-- Witness for c6_video_no_stop_early_reject: a video buffer at
timestamp 3 without duration against the segment starting at 10 is
discarded as out of segment. -/
theorem c6_video_no_stop_early_reject_witness :
    videoPrepare seg10 0 0 ⟨3, clockTimeNone, 1⟩ = .outOfSegment :=
  c6_video_no_stop_early_reject seg10 0 0 ⟨3, clockTimeNone, 1⟩
    (by decide) (by decide) (by decide)

/-! ### C10: alpha buffers with invalid timestamp -/

/-- Counterexample to C10 as stated.  An alpha buffer with invalid
timestamp but VALID duration 5 bypasses clipping (in_seg is forced
true) — but the metadata rewrite at line 808 still fires for the valid
duration and overwrites it with clip_stop - clip_start computed from
the 0-initialised clip locals: the queued buffer carries duration 0,
not 5, so the duration IS modified. -/
theorem c10_counterexample :
    (alphaChain (stWith none) ⟨clockTimeNone, 5, 3⟩).1 =
      .queued ⟨clockTimeNone, 0, 3⟩ ∧
    (⟨clockTimeNone, 5, 3⟩ : GstBuffer).dur = 5 ∧ (0 : Nat) ≠ 5 := by
  decide

/-- C10 (amended): an alpha buffer with an invalid timestamp bypasses
segment clipping entirely and, with the alpha stream neither flushing
nor at EOS and the slot empty, is queued with its timestamp unmodified
and without the alpha segment position being advanced; its duration,
however, is overwritten with 0 (the difference of the 0-initialised
clip locals) when it was valid, and kept only when it was itself
invalid. -/
theorem c10_invalid_ts_alpha_queued (st : AMState) (b : GstBuffer)
    (hf : st.alpha_flushing = false) (he : st.alpha_eos = false)
    (hslot : st.alpha_buffer = none) (hts : ¬ ctValid b.pts) :
    (alphaChain st b).1 =
      .queued ⟨b.pts, if ctValid b.dur then 0 else b.dur, b.payload⟩ ∧
    (alphaChain st b).2.alpha_segment = st.alpha_segment ∧
    (alphaChain st b).2.alpha_buffer =
      some ⟨b.pts, if ctValid b.dur then 0 else b.dur, b.payload⟩ := by
  have h00 : u64sub 0 0 = 0 := by decide
  simp only [alphaChain, hf, he, hslot, Bool.false_eq_true, if_false, if_neg hts, h00]
  exact ⟨rfl, rfl, rfl⟩

/-- Witness for c10_invalid_ts_alpha_queued: an undated alpha buffer
with duration 7 on a fresh state is queued with timestamp kept,
duration overwritten with 0, and the alpha segment untouched. -/
theorem c10_invalid_ts_alpha_queued_witness :
    (alphaChain (stWith none) ⟨clockTimeNone, 7, 2⟩).1 =
      .queued ⟨clockTimeNone, if ctValid (7 : Nat) then 0 else 7, 2⟩ ∧
    (alphaChain (stWith none) ⟨clockTimeNone, 7, 2⟩).2.alpha_segment =
      (stWith none).alpha_segment ∧
    (alphaChain (stWith none) ⟨clockTimeNone, 7, 2⟩).2.alpha_buffer =
      some ⟨clockTimeNone, if ctValid (7 : Nat) then 0 else 7, 2⟩ :=
  c10_invalid_ts_alpha_queued (stWith none) ⟨clockTimeNone, 7, 2⟩
    rfl rfl rfl (by decide)

/-! ### Byte-level lemmas for the compositor loops -/

/-- Byte reads are already reduced bytes. -/
theorem byteAt_mod (m : ByteMem) (a : Nat) : byteAt m a % 256 = byteAt m a := by
  simp [byteAt, Nat.mod_mod_of_dvd]

/-- Storing two byte-equal values gives the same memory. -/
theorem memSet_congr {m m' : ByteMem} {a a' v v' : Nat}
    (hm : m = m') (ha : a = a') (hv : v % 256 = v' % 256) :
    memSet m a v = memSet m' a' v' := by
  subst hm; subst ha
  funext x
  simp only [memSet, hv]

/-- Byte extraction from a little-endian 4-byte load. -/
theorem leLoad4_bytes (src : ByteMem) (a : Nat) :
    leLoad src a 4 % 256 = byteAt src a ∧
    leLoad src a 4 / 256 % 256 = byteAt src (a + 1) ∧
    leLoad src a 4 / 256 / 256 % 256 = byteAt src (a + 2) ∧
    leLoad src a 4 / 256 / 256 / 256 % 256 = byteAt src (a + 3) := by
  have e2 : a + 1 + 1 = a + 2 := by omega
  have e3 : a + 1 + 1 + 1 = a + 3 := by omega
  simp only [leLoad, byteAt, e2, e3, Nat.mul_zero, Nat.add_zero]
  omega

/-- Byte extraction from a little-endian 8-byte load. -/
theorem leLoad8_bytes (src : ByteMem) (a : Nat) :
    leLoad src a 8 % 256 = byteAt src a ∧
    leLoad src a 8 / 256 % 256 = byteAt src (a + 1) ∧
    leLoad src a 8 / 256 / 256 % 256 = byteAt src (a + 2) ∧
    leLoad src a 8 / 256 / 256 / 256 % 256 = byteAt src (a + 3) ∧
    leLoad src a 8 / 256 / 256 / 256 / 256 % 256 = byteAt src (a + 4) ∧
    leLoad src a 8 / 256 / 256 / 256 / 256 / 256 % 256 = byteAt src (a + 5) ∧
    leLoad src a 8 / 256 / 256 / 256 / 256 / 256 / 256 % 256 = byteAt src (a + 6) ∧
    leLoad src a 8 / 256 / 256 / 256 / 256 / 256 / 256 / 256 % 256 = byteAt src (a + 7) := by
  have e2 : a + 1 + 1 = a + 2 := by omega
  have e3 : a + 2 + 1 = a + 3 := by omega
  have e4 : a + 3 + 1 = a + 4 := by omega
  have e5 : a + 4 + 1 = a + 5 := by omega
  have e6 : a + 5 + 1 = a + 6 := by omega
  have e7 : a + 6 + 1 = a + 7 := by omega
  simp only [leLoad, byteAt, e2, e3, e4, e5, e6, e7, Nat.mul_zero, Nat.add_zero]
  omega

/-- One 4-pixel batch iteration writes exactly the bytes the reference
loop writes for the same four pixels. -/
theorem u4row_eq_u1row (src : ByteMem) (sb db : Nat) :
    ∀ j m, u4row src sb db j m = u1row src sb db (4 * j) m := by
  intro j
  induction j with
  | zero => intro m; rfl
  | succ n ih =>
    intro m
    have h4 : 4 * (n + 1) = 4 * n + 1 + 1 + 1 + 1 := by ring
    rw [h4]
    simp only [u4row, u1row]
    refine memSet_congr (memSet_congr (memSet_congr (memSet_congr (ih m)
      (by omega) ?_) (by omega) ?_) (by omega) ?_) (by omega) ?_
    · rw [(leLoad4_bytes src (sb + 4 * n)).1, byteAt_mod]
    · rw [(leLoad4_bytes src (sb + 4 * n)).2.1, byteAt_mod]
      all_goals congr 1
    · rw [(leLoad4_bytes src (sb + 4 * n)).2.2.1, byteAt_mod]
      all_goals congr 1
    · rw [(leLoad4_bytes src (sb + 4 * n)).2.2.2, byteAt_mod]
      all_goals congr 1

/-- One 8-pixel batch iteration writes exactly the bytes the reference
loop writes for the same eight pixels. -/
theorem u8row_eq_u1row (src : ByteMem) (sb db : Nat) :
    ∀ j m, u8row src sb db j m = u1row src sb db (8 * j) m := by
  intro j
  induction j with
  | zero => intro m; rfl
  | succ n ih =>
    intro m
    have h8 : 8 * (n + 1) = 8 * n + 1 + 1 + 1 + 1 + 1 + 1 + 1 + 1 := by ring
    rw [h8]
    simp only [u8row, u1row]
    refine memSet_congr (memSet_congr (memSet_congr (memSet_congr (memSet_congr
      (memSet_congr (memSet_congr (memSet_congr (ih m)
      (by omega) ?_) (by omega) ?_) (by omega) ?_) (by omega) ?_)
      (by omega) ?_) (by omega) ?_) (by omega) ?_) (by omega) ?_
    · rw [(leLoad8_bytes src (sb + 8 * n)).1, byteAt_mod]
    · rw [(leLoad8_bytes src (sb + 8 * n)).2.1, byteAt_mod]
      all_goals congr 1
    · rw [(leLoad8_bytes src (sb + 8 * n)).2.2.1, byteAt_mod]
      all_goals congr 1
    · rw [(leLoad8_bytes src (sb + 8 * n)).2.2.2.1, byteAt_mod]
      all_goals congr 1
    · rw [(leLoad8_bytes src (sb + 8 * n)).2.2.2.2.1, byteAt_mod]
      all_goals congr 1
    · rw [(leLoad8_bytes src (sb + 8 * n)).2.2.2.2.2.1, byteAt_mod]
      all_goals congr 1
    · rw [(leLoad8_bytes src (sb + 8 * n)).2.2.2.2.2.2.1, byteAt_mod]
      all_goals congr 1
    · rw [(leLoad8_bytes src (sb + 8 * n)).2.2.2.2.2.2.2, byteAt_mod]
      all_goals congr 1

/-- Row-loop lift of u4row_eq_u1row. -/
theorem u4rows_eq_u1rows (src : ByteMem) (ss ds w4 : Nat) :
    ∀ h m, u4rows src ss ds w4 h m = u1rows src ss ds (4 * w4) h m := by
  intro h
  induction h with
  | zero => intro m; rfl
  | succ n ih =>
    intro m
    simp only [u4rows, u1rows]
    rw [ih, u4row_eq_u1row]

/-- Row-loop lift of u8row_eq_u1row. -/
theorem u8rows_eq_u1rows (src : ByteMem) (ss ds w8 : Nat) :
    ∀ h m, u8rows src ss ds w8 h m = u1rows src ss ds (8 * w8) h m := by
  intro h
  induction h with
  | zero => intro m; rfl
  | succ n ih =>
    intro m
    simp only [u8rows, u1rows]
    rw [ih, u8row_eq_u1row]

/-- The 4-batch compositor equals the byte-at-a-time reference when the
width is a multiple of 4. -/
theorem copy_alpha_packed_u4_eq_u1 (dst : ByteMem) (ds : Nat) (src : ByteMem)
    (ss w h : Nat) (hw : w % 4 = 0) :
    copy_alpha_packed_u4 dst ds src ss w h = copy_alpha_packed_u1 dst ds src ss w h := by
  unfold copy_alpha_packed_u4 copy_alpha_packed_u1
  rw [u4rows_eq_u1rows]
  have hww : 4 * (w / 4) = w := by omega
  rw [hww]

/-- The 8-batch compositor equals the byte-at-a-time reference when the
width is a multiple of 8. -/
theorem copy_alpha_packed_u8_eq_u1 (dst : ByteMem) (ds : Nat) (src : ByteMem)
    (ss w h : Nat) (hw : w % 8 = 0) :
    copy_alpha_packed_u8 dst ds src ss w h = copy_alpha_packed_u1 dst ds src ss w h := by
  unfold copy_alpha_packed_u8 copy_alpha_packed_u1
  rw [u8rows_eq_u1rows]
  have hww : 8 * (w / 8) = w := by omega
  rw [hww]

/-! ### C7: batch loops are byte-identical to the reference loop -/

/-- C7: for any strides and height, a width that is a multiple of 4
(routed to the 4-pixel batch loop when not also a multiple of 8) or a
multiple of 8 (routed to the 8-pixel batch loop) makes the packed
compositor produce output memory identical to the byte-at-a-time
reference loop. -/
theorem c7_packed_batches_match_reference (dst : ByteMem) (ds : Nat) (src : ByteMem)
    (ss w h : Nat) (hw : w % 4 = 0 ∨ w % 8 = 0) :
    copy_alpha_packed dst ds src ss w h = copy_alpha_packed_u1 dst ds src ss w h := by
  have hw4 : w % 4 = 0 := by
    rcases hw with h4 | h8
    · exact h4
    · omega
  unfold copy_alpha_packed
  rw [if_neg (by omega)]
  by_cases h8 : w % 8 ≠ 0
  · rw [if_pos h8]
    exact copy_alpha_packed_u4_eq_u1 dst ds src ss w h hw4
  · rw [if_neg h8]
    exact copy_alpha_packed_u8_eq_u1 dst ds src ss w h (by omega)

/-- A concrete source plane for witnesses. -/
def memA : ByteMem := fun a => a + 3

/-- A concrete destination plane for witnesses. -/
def memB : ByteMem := fun a => 2 * a + 1

/-- Witness for c7_packed_batches_match_reference at width 4 (routed to
the 4-pixel batch loop). -/
theorem c7_packed_batches_match_reference_witness :
    ((4 : Nat) % 4 = 0 ∨ (4 : Nat) % 8 = 0) ∧
    copy_alpha_packed memB 16 memA 4 4 2 = copy_alpha_packed_u1 memB 16 memA 4 4 2 :=
  ⟨Or.inl (by decide),
   c7_packed_batches_match_reference memB 16 memA 4 4 2 (Or.inl (by decide))⟩

/-! ### C8: planar copy versus the naive per-row reference -/

/-- Bytes inside the copied range read back as source bytes. -/
theorem memcpyBytes_get (dst : ByteMem) (db : Nat) (src : ByteMem) (sb : Nat) :
    ∀ n k, k < n → memcpyBytes dst db src sb n (db + k) = byteAt src (sb + k) := by
  intro n
  induction n with
  | zero => intro k hk; omega
  | succ m ih =>
    intro k hk
    simp only [memcpyBytes, memSet]
    by_cases hkm : k = m
    · subst hkm
      rw [if_pos rfl, byteAt_mod]
    · rw [if_neg (by omega)]
      exact ih k (by omega)

/-- Bytes outside the copied range are untouched. -/
theorem memcpyBytes_untouched (dst : ByteMem) (db : Nat) (src : ByteMem) (sb : Nat) :
    ∀ n x, (∀ k, k < n → x ≠ db + k) → memcpyBytes dst db src sb n x = dst x := by
  intro n
  induction n with
  | zero => intro x _; rfl
  | succ m ih =>
    intro x hx
    simp only [memcpyBytes, memSet]
    rw [if_neg (hx m (by omega))]
    exact ih x fun k hk => hx k (by omega)

/-- The row loop of copy_alpha_planar is the naive reference loop. -/
theorem planarRows_eq_naiveRows (src : ByteMem) (ss ds w h : Nat) (m : ByteMem) :
    planarRows src ss ds w h m = naiveRows src ss ds w h m := by
  induction h generalizing m with
  | zero => rfl
  | succ n ih =>
    simp only [planarRows, naiveRows]
    rw [ih]

/-- With equal strides every pixel byte written by the naive reference
loop reads back as the source byte at the same plane offset. -/
theorem naiveRows_diag (src : ByteMem) (s w : Nat) :
    ∀ h m i j, i < h → j < w → naiveRows src s s w h m (i * s + j) = byteAt src (i * s + j) := by
  intro h
  induction h with
  | zero => intro m i j hi _; omega
  | succ n ih =>
    intro m i j hi hj
    simp only [naiveRows]
    by_cases hx : ∃ k, k < w ∧ i * s + j = n * s + k
    · obtain ⟨k, hk, heq⟩ := hx
      rw [heq, memcpyBytes_get _ _ _ _ w k hk, ← heq]
    · have hunt : ∀ k, k < w → i * s + j ≠ n * s + k := by
        intro k hk hcontra
        exact hx ⟨k, hk, hcontra⟩
      rw [memcpyBytes_untouched _ _ _ _ w _ hunt]
      have hin : i < n := by
        rcases Nat.lt_succ_iff_lt_or_eq.mp hi with h' | h'
        · exact h'
        · exact absurd ⟨j, hj, by rw [h']⟩ hx
      exact ih m i j hin hj

/-- C8: on every pixel of the alpha plane (row below height, column
below width, at offset row * dstride + column), the planar compositor
output equals the naive per-row reference copy — in particular the
equal-stride bulk memcpy fast path agrees with the per-row loop there.
The width is bounded by both strides, as in any real video frame
layout. -/
theorem c8_planar_matches_naive (dst : ByteMem) (ds : Nat) (src : ByteMem)
    (ss w h i j : Nat) (hws : w ≤ ss) (hwd : w ≤ ds) (hi : i < h) (hj : j < w) :
    copy_alpha_planar dst ds src ss w h (i * ds + j) =
      naive_plane_copy dst ds src ss w h (i * ds + j) := by
  unfold copy_alpha_planar naive_plane_copy
  by_cases hsd : ss = ds
  · rw [if_pos hsd]
    subst hsd
    have hlt : i * ss + j < h * ss := by
      have h1 : i * ss + j < (i + 1) * ss := by
        rw [Nat.succ_mul]
        omega
      have h2 : (i + 1) * ss ≤ h * ss := Nat.mul_le_mul_right ss hi
      omega
    have hget := memcpyBytes_get dst 0 src 0 (h * ss) (i * ss + j) hlt
    simp only [Nat.zero_add] at hget
    rw [hget, naiveRows_diag src ss w h dst i j hi hj]
  · rw [if_neg hsd, planarRows_eq_naiveRows]

/-- Witness for c8_planar_matches_naive: a 2 x 2 plane with source
stride 3 and destination stride 5, at pixel (1,1). -/
theorem c8_planar_matches_naive_witness :
    (2 : Nat) ≤ 3 ∧ (2 : Nat) ≤ 5 ∧ (1 : Nat) < 2 ∧ (1 : Nat) < 2 ∧
    copy_alpha_planar memB 5 memA 3 2 2 (1 * 5 + 1) =
      naive_plane_copy memB 5 memA 3 2 2 (1 * 5 + 1) :=
  ⟨by decide, by decide, by decide, by decide,
   c8_planar_matches_naive memB 5 memA 3 2 2 1 1 (by decide) (by decide)
     (by decide) (by decide)⟩

/-! ### C9: the packed compositor leaves non-alpha bytes untouched -/

/-- One reference row touches only offsets congruent to the row base
modulo 4. -/
theorem u1row_untouched (src : ByteMem) (sb db j : Nat) (m : ByteMem) (x : Nat)
    (hx : x % 4 ≠ db % 4) : u1row src sb db j m x = m x := by
  induction j generalizing m with
  | zero => rfl
  | succ n ih =>
    simp only [u1row, memSet]
    rw [if_neg (by omega)]
    exact ih m

/-- The reference loop touches only offsets congruent to 0 modulo 4
when the destination stride is a multiple of 4. -/
theorem u1rows_untouched (src : ByteMem) (ss ds w h : Nat) (m : ByteMem) (x : Nat)
    (hds : ds % 4 = 0) (hx : x % 4 ≠ 0) : u1rows src ss ds w h m x = m x := by
  induction h generalizing m with
  | zero => rfl
  | succ n ih =>
    have h0 : (n * ds) % 4 = 0 := by
      rw [Nat.mul_mod, hds, Nat.mul_zero, Nat.zero_mod]
    simp only [u1rows]
    rw [u1row_untouched src (n * ss) (n * ds) w _ x (by rw [h0]; exact hx)]
    exact ih m

/-- C9: in the interleaved 4-bytes-per-pixel output (destination stride
a multiple of 4, as for every 32-bit packed video format), the packed
compositor writes only the alpha byte at offset 0 of each 4-byte
pixel: for every pixel (row i, column j) the other three bytes, at
offsets i * dstride + 4 j + r with r in 1..3, are left exactly as the
external converter populated them. -/
theorem c9_packed_preserves_other_bytes (dst : ByteMem) (ds : Nat) (src : ByteMem)
    (ss w h i j r : Nat) (hds : ds % 4 = 0) (hi : i < h) (hj : j < w)
    (hr : r = 1 ∨ r = 2 ∨ r = 3) :
    copy_alpha_packed dst ds src ss w h (i * ds + 4 * j + r) =
      dst (i * ds + 4 * j + r) := by
  have hx : (i * ds + 4 * j + r) % 4 ≠ 0 := by
    have h0 : (i * ds) % 4 = 0 := by
      rw [Nat.mul_mod, hds, Nat.mul_zero, Nat.zero_mod]
    rcases hr with h' | h' | h' <;> omega
  unfold copy_alpha_packed
  by_cases h4 : w % 4 ≠ 0
  · rw [if_pos h4]
    exact u1rows_untouched src ss ds w h dst _ hds hx
  · rw [if_neg h4]
    by_cases h8 : w % 8 ≠ 0
    · rw [if_pos h8]
      rw [copy_alpha_packed_u4_eq_u1 dst ds src ss w h (by omega)]
      exact u1rows_untouched src ss ds w h dst _ hds hx
    · rw [if_neg h8]
      rw [copy_alpha_packed_u8_eq_u1 dst ds src ss w h (by omega)]
      exact u1rows_untouched src ss ds w h dst _ hds hx

/-- Witness for c9_packed_preserves_other_bytes: a 3-pixel-wide (byte
loop), 2-row frame with stride 16; byte 2 of pixel (1,2) is untouched. -/
theorem c9_packed_preserves_other_bytes_witness :
    (16 : Nat) % 4 = 0 ∧ (1 : Nat) < 2 ∧ (2 : Nat) < 3 ∧
    ((2 : Nat) = 1 ∨ (2 : Nat) = 2 ∨ (2 : Nat) = 3) ∧
    copy_alpha_packed memB 16 memA 4 3 2 (1 * 16 + 4 * 2 + 2) =
      memB (1 * 16 + 4 * 2 + 2) :=
  ⟨by decide, by decide, by decide, Or.inr (Or.inl rfl),
   c9_packed_preserves_other_bytes memB 16 memA 4 3 2 1 2 2 (by decide) (by decide)
     (by decide) (Or.inr (Or.inl rfl))⟩
